import Mathlib

/-!
Verification development for the swar/bol grid editor ("swaralipi").

Shallow embedding of the TypeScript sources:
  * the taal table and column marker math (app components, model file),
  * the grid editor service (grid mutations, snapshot history, undo/redo,
    selection movement),
  * the playback cursor step and the per-cell trigger decision,
  * the MIDI export service (note tables, header chunk, variable length
    quantity encoding with JavaScript 32-bit bitwise semantics, track and
    file assembly).

Conventions of the embedding:
  * JavaScript numbers that only ever hold small non-negative integers are
    `Nat`; values that flow through JavaScript bitwise operators are `Int`
    with the ToInt32 wrap modelled explicitly (`toInt32`, `bits32`).
  * `JSON.parse(JSON.stringify(x))` deep copies are the identity on the
    pure values involved (strings, booleans, arrays of such), so history
    snapshots are plain values.
  * The two `while` loops of `encodeVariableLength` are given explicit
    fuel; `none` marks a computation that did not finish within the fuel.
-/

namespace Swaralipi

/-! ### Data model (models/notation.model.ts) -/

/-- A single grid cell: melodic symbol, percussion symbol, modifier list,
header flag.  Modifiers are kept as strings ("lower", "upper", "meend",
"kan"), matching the string union type of the source. -/
structure Cell where
  swar : String
  bol : String
  modifiers : List String
  isHeader : Bool
deriving DecidableEq, Repr

/-- The grid owned by the editor service: a row-major list of cells. -/
abbrev Grid := List (List Cell)

/-- A taal (meter): beat count, vibhag subdivision, boundary markers. -/
structure TaalStructure where
  beats : Nat
  vibhags : List Nat
  markers : List String
  name : String
deriving DecidableEq, Repr

/-- A selection position; `row`/`col` are JavaScript numbers, kept as `Int`
because nothing in the source constrains them to be in range. -/
structure CellPos where
  row : Int
  col : Int
deriving DecidableEq, Repr

/-- The fixed taal registry `TAAL_STRUCTURES` as an association list. -/
def TAAL_STRUCTURES : List (String × TaalStructure) :=
  [ ("teen",     ⟨16, [4, 4, 4, 4],       ["X", "2", "0", "3"],           "तीनताल"⟩),
    ("ektaal",   ⟨12, [2, 2, 2, 2, 2, 2], ["X", "0", "2", "0", "3", "4"], "एकताल"⟩),
    ("jhaptaal", ⟨10, [2, 3, 2, 3],       ["X", "2", "0", "3"],           "झपताल"⟩),
    ("rupak",    ⟨7,  [3, 2, 2],          ["X", "2", "3"],                "रूपक"⟩),
    ("dadra",    ⟨6,  [3, 3],             ["X", "0"],                     "दादरा"⟩),
    ("keherwa",  ⟨8,  [4, 4],             ["X", "0"],                     "कहरवा"⟩) ]

/-- The 16-beat meter (`TAAL_STRUCTURES['teen']`). -/
def teenTaal : TaalStructure := ⟨16, [4, 4, 4, 4], ["X", "2", "0", "3"], "तीनताल"⟩

/-- `SWAR_MAP`: shorthand key → full swar symbol. -/
def SWAR_MAP : List (String × String) :=
  [ ("s", "सा"), ("r", "रे"), ("R", "रे"), ("g", "ग"), ("G", "ग"),
    ("m", "म"), ("M", "म"), ("p", "प"), ("d", "ध"), ("D", "ध"),
    ("n", "नी"), ("N", "नी"),
    ("सा", "सा"), ("रे", "रे"), ("रे॒", "रे॒"), ("ग", "ग"), ("ग॒", "ग॒"),
    ("म", "म"), ("म॑", "म॑"), ("प", "प"), ("ध", "ध"), ("ध॒", "ध॒"),
    ("नी", "नी"), ("नी॒", "नी॒") ]

/-- `BOL_MAP`: bol key → bol symbol (an identity table plus `S`, `-`, `x`). -/
def BOL_MAP : List (String × String) :=
  [ ("धा", "धा"), ("धिं", "धिं"), ("धिर", "धिर"), ("धिन", "धिन"),
    ("ता", "ता"), ("ति", "ति"), ("तिं", "तिं"), ("तिरकिट", "तिरकिट"),
    ("का", "का"), ("गे", "गे"), ("ना", "ना"), ("दिन", "दिन"),
    ("S", "S"), ("-", "-"), ("x", "x") ]

/-- `MAP[key] || key`: table lookup falling back to the raw input (every
stored value is a non-empty string, so JavaScript truthiness is just
presence in the table). -/
def mapLookup (table : List (String × String)) (key : String) : String :=
  match table.lookup key with
  | some v => v
  | none => key

/-! ### Taal marker math (`getTaalMarker`, src/unnamed/part_002)

The source walks vibhags with mutable `markerIndex`, `beatInVibhag`,
`currentBeat`.  `vibhags[markerIndex]` can be read past the end of the
array, where JavaScript yields `undefined` and the comparison
`beatInVibhag >= undefined` is `false`; the `none` branch below models
that. -/

/-- `beatInVibhag >= this.taalStructure.vibhags[markerIndex]` with the
out-of-range read yielding a false comparison. -/
def vibhagFull (vibhags : List Nat) (markerIndex beatInVibhag : Nat) : Bool :=
  match vibhags.get? markerIndex with
  | some w => beatInVibhag ≥ w
  | none => false

/-- One iteration of the `for (let i = 1; i < col; i++)` body; the state is
`(markerIndex, beatInVibhag, currentBeat)`. -/
def taalStep (vibhags : List Nat) (st : Nat × Nat × Nat) : Nat × Nat × Nat :=
  let biv := st.2.1 + 1
  if vibhagFull vibhags st.1 biv then (st.1 + 1, 0, st.2.2 + 1)
  else (st.1, biv, st.2.2 + 1)

/-- Run the loop body `n` times. -/
def taalLoop (vibhags : List Nat) : Nat → Nat × Nat × Nat → Nat × Nat × Nat
  | 0, st => st
  | n + 1, st => taalLoop vibhags n (taalStep vibhags st)

/-- `getTaalMarker(col)`: empty for the header column; otherwise walk the
vibhags and return the boundary marker when the beat-in-vibhag counter has
just reset to 1, else the absolute beat number as a string. -/
def getTaalMarker (taal : TaalStructure) (col : Nat) : String :=
  if col = 0 then ""
  else
    let st := taalLoop taal.vibhags (col - 1) (0, 0, 1)
    let biv := st.2.1 + 1
    let (mi, biv) :=
      if vibhagFull taal.vibhags st.1 biv then (st.1 + 1, 0) else (st.1, biv)
    if biv = 1 then
      match taal.markers.get? mi with
      | some m => m
      | none => ""
    else toString st.2.2

/-! ### Editor service (services/notation.ts)

State of the `NotationService` singleton.  `rows` mirrors the separate
`this.rows` counter of the source (it is not derived from the grid), and
`taalBeats` the beat count of the currently selected taal, used when a new
row is built.  History snapshots are plain values: the source's
serialization round-trip is the identity on this data. -/
structure ServiceState where
  grid : Grid
  rows : Nat
  taalBeats : Nat
  history : List Grid
  historyIndex : Int
  selected : CellPos
deriving DecidableEq, Repr

/-- `MAX_HISTORY`. -/
def MAX_HISTORY : Nat := 50

/-- Replace the element at index `i` by `f` applied to it; out-of-range
indices leave the list unchanged (mutation through a fetched reference in
the source is only ever performed on indices that passed a bounds check). -/
def listUpd {α : Type} : List α → Nat → (α → α) → List α
  | [], _, _ => []
  | x :: xs, 0, f => f x :: xs
  | x :: xs, i + 1, f => x :: listUpd xs i f

/-- `array.splice(i, 0, a)` for `i ≤ length` (JavaScript clamps a start
index beyond the end to the end). -/
def listInsertAt {α : Type} : List α → Nat → α → List α
  | l, 0, a => a :: l
  | [], _ + 1, a => [a]
  | x :: xs, i + 1, a => x :: listInsertAt xs i a

/-- `array.splice(i, 1)`: drop the element at index `i` if it exists. -/
def listEraseAt {α : Type} : List α → Nat → List α
  | [], _ => []
  | _ :: xs, 0 => xs
  | x :: xs, i + 1 => x :: listEraseAt xs i

/-- A blank row of `cols` cells; column 0 is the header. -/
def blankRow (cols : Nat) : List Cell :=
  (List.range cols).map fun j => ⟨"", "", [], j == 0⟩

/-- The grid built by `initializeGrid` for a taal of `beats` beats and
`rows` rows. -/
def freshGrid (rows beats : Nat) : Grid :=
  List.replicate rows (blankRow (beats + 1))

/-- The constructor state: ten rows of the default 16-beat taal, no
history, `historyIndex = -1`, selection at `(0, 1)`. -/
def initState : ServiceState :=
  ⟨freshGrid 10 16, 10, 16, [], -1, ⟨0, 1⟩⟩

/-- `getCell(row, col)`: `null` unless `row < this.rows` and `col` is
inside the addressed row.  (Positions are `Nat` here: negative indices
fall under the same out-of-bounds guard in the source.) -/
def getCell (s : ServiceState) (row col : Nat) : Option Cell :=
  if row < s.rows then
    match s.grid.get? row with
    | some r => r.get? col
    | none => none
  else none

/-- `saveState()`: truncate the redo branch, append a snapshot of the
current grid, and either evict the oldest entry (keeping the index) or
advance the index. -/
def saveState (s : ServiceState) : ServiceState :=
  let hist := s.history.take (s.historyIndex + 1).toNat ++ [s.grid]
  if hist.length > MAX_HISTORY then { s with history := hist.drop 1 }
  else { s with history := hist, historyIndex := s.historyIndex + 1 }

/-- Shared guard-and-mutate shape of the four cell mutators: fetch the
cell, require `col > 0`, snapshot, then update the cell in place. -/
def mutateCell (s : ServiceState) (row col : Nat) (f : Cell → Cell) : ServiceState :=
  match getCell s row col with
  | some _ =>
      if 0 < col then
        let s' := saveState s
        { s' with grid := listUpd s'.grid row (fun r => listUpd r col f) }
      else s
  | none => s

/-- `setCellSwar`. -/
def setCellSwar (row col : Nat) (swar : String) (s : ServiceState) : ServiceState :=
  mutateCell s row col fun c => { c with swar := mapLookup SWAR_MAP swar }

/-- `setCellBol`. -/
def setCellBol (row col : Nat) (bol : String) (s : ServiceState) : ServiceState :=
  mutateCell s row col fun c => { c with bol := mapLookup BOL_MAP bol }

/-- `toggleModifier`: remove the first occurrence when present; otherwise
push it, first dropping both octave modifiers when it is one of them. -/
def toggleModifier (row col : Nat) (m : String) (s : ServiceState) : ServiceState :=
  mutateCell s row col fun c =>
    if c.modifiers.contains m then { c with modifiers := c.modifiers.erase m }
    else
      let base :=
        if m = "lower" ∨ m = "upper" then
          c.modifiers.filter fun x => x ≠ "lower" ∧ x ≠ "upper"
        else c.modifiers
      { c with modifiers := base ++ [m] }

/-- `clearCell`. -/
def clearCell (row col : Nat) (s : ServiceState) : ServiceState :=
  mutateCell s row col fun c => { c with swar := "", bol := "", modifiers := [] }

/-- `insertRow(afterRow)`: snapshot, then splice a blank row (width from
the current taal) in after `afterRow` and bump the row counter. -/
def insertRow (afterRow : Nat) (s : ServiceState) : ServiceState :=
  let s' := saveState s
  { s' with grid := listInsertAt s'.grid (afterRow + 1) (blankRow (s.taalBeats + 1)),
            rows := s'.rows + 1 }

/-- `deleteRow(row)`: refuse when one row remains; otherwise snapshot,
splice the row out, decrement the counter, and clamp the selection. -/
def deleteRow (row : Nat) (s : ServiceState) : ServiceState :=
  if s.rows > 1 then
    let s' := saveState s
    let rows' := s'.rows - 1
    let sel :=
      if s'.selected.row ≥ (rows' : Int) then { s'.selected with row := (rows' : Int) - 1 }
      else s'.selected
    { s' with grid := listEraseAt s'.grid row, rows := rows', selected := sel }
  else s

/-- `undo()`: succeeds only when `historyIndex > 0`; then decrements the
index and restores a copy of the entry now at that index. -/
def undo (s : ServiceState) : Bool × ServiceState :=
  if s.historyIndex > 0 then
    let idx := s.historyIndex - 1
    (true, { s with historyIndex := idx, grid := s.history.getD idx.toNat [] })
  else (false, s)

/-- `redo()`: succeeds only when `historyIndex < history.length - 1`. -/
def redo (s : ServiceState) : Bool × ServiceState :=
  if s.historyIndex < (s.history.length : Int) - 1 then
    let idx := s.historyIndex + 1
    (true, { s with historyIndex := idx, grid := s.history.getD idx.toNat [] })
  else (false, s)

/-- The six mutating operations quantified over by the history claims. -/
inductive EditOp where
  | setSwar (row col : Nat) (v : String)
  | setBol (row col : Nat) (v : String)
  | toggle (row col : Nat) (m : String)
  | clear (row col : Nat)
  | insertR (afterRow : Nat)
  | deleteR (row : Nat)
deriving DecidableEq, Repr

/-- Apply one mutating operation. -/
def applyOp (op : EditOp) (s : ServiceState) : ServiceState :=
  match op with
  | .setSwar r c v => setCellSwar r c v s
  | .setBol r c v => setCellBol r c v s
  | .toggle r c m => toggleModifier r c m s
  | .clear r c => clearCell r c s
  | .insertR a => insertRow a s
  | .deleteR r => deleteRow r s

/-- The four arrow directions of `moveSelection`. -/
inductive MoveDir where
  | up
  | down
  | left
  | right
deriving DecidableEq, Repr

/-- `moveSelection(direction)` as a pure function of the current position;
`rows` is `this.rows` and `maxCol` is `this.grid[0].length - 1`. -/
def moveSelection (rows maxCol : Int) (p : CellPos) (d : MoveDir) : CellPos :=
  match d with
  | .up => { p with row := max 0 (p.row - 1) }
  | .down => { p with row := min (rows - 1) (p.row + 1) }
  | .left => { p with col := max 1 (p.col - 1) }
  | .right => { p with col := min maxCol (p.col + 1) }

/-! ### Playback (components/playback-controls/playback-controls.ts) -/

/-- The mutable cursor of the playback loop:
`currentRow`, `currentCol`, `currentBeat`. -/
structure Cursor where
  row : Nat
  col : Nat
  beat : Nat
deriving DecidableEq, Repr

/-- One tick of `startPlaybackLoop`'s interval callback (the cursor
update; the cell trigger and highlight are side effects of the same
callback, modelled separately by `playCell`). -/
def tickStep (colCount rowCount : Nat) (cur : Cursor) : Cursor :=
  let col := cur.col + 1
  let beat := cur.beat + 1
  if col ≥ colCount then
    if cur.row + 1 ≥ rowCount then ⟨0, 1, 0⟩
    else ⟨cur.row + 1, 1, beat⟩
  else ⟨cur.row, col, beat⟩

/-- `n` consecutive ticks. -/
def runTicks (colCount rowCount : Nat) : Nat → Cursor → Cursor
  | 0, cur => cur
  | n + 1, cur => runTicks colCount rowCount n (tickStep colCount rowCount cur)

/-- A call handed to an external sound collaborator by `playCell`:
either `audioService.playSwar(swar, modifiers, seconds)` or
`tablaService.playBol(bol, seconds)`. -/
inductive TriggerCall where
  | swarCall (swar : String) (modifiers : List String) (durationSec : ℚ)
  | bolCall (bol : String) (durationSec : ℚ)
deriving DecidableEq, Repr

/-- `playCell`: the collaborator calls made for one cell, in order.  The
swar guard is `cell.swar && cell.swar !== '-' && cell.swar !== ''` (the
truthiness test and the `!== ''` test coincide for strings); the bol
guard is the same shape.  `beatDuration` is in milliseconds. -/
def playCell (cell : Cell) (beatDuration : ℚ) : List TriggerCall :=
  (if cell.swar ≠ "" ∧ cell.swar ≠ "-" ∧ cell.swar ≠ "" then
    [TriggerCall.swarCall cell.swar cell.modifiers (beatDuration / 1000)]
  else []) ++
  (if cell.bol ≠ "" ∧ cell.bol ≠ "-" ∧ cell.bol ≠ "" then
    [TriggerCall.bolCall cell.bol (beatDuration / 1000)]
  else [])

/-! ### JavaScript 32-bit bitwise semantics

JavaScript's `&`, `|`, `<<` convert their operands with ToInt32 and
return a signed 32-bit result; `>>` is the sign-propagating shift, which
on a 32-bit value is floor division by the power of two (`Int./` is
Euclidean division, which agrees with floor division for a positive
divisor). -/

/-- ToInt32: wrap into `[-2^31, 2^31)`. -/
def toInt32 (x : Int) : Int := (x + 2 ^ 31) % 2 ^ 32 - 2 ^ 31

/-- The 32 low bits of a number, as a `Nat` (ToUint32 of the value). -/
def bits32 (x : Int) : Nat := (x % 2 ^ 32).toNat

/-- JavaScript `a & b`. -/
def jsAnd (a b : Int) : Int := toInt32 ((bits32 a &&& bits32 b : Nat) : Int)

/-- JavaScript `a | b`. -/
def jsOr (a b : Int) : Int := toInt32 ((bits32 a ||| bits32 b : Nat) : Int)

/-- JavaScript `a << k` for a literal shift count `k < 32`. -/
def jsShl (a : Int) (k : Nat) : Int := toInt32 ((bits32 a <<< k : Nat) : Int)

/-- JavaScript `a >> k` for a literal shift count `k < 32`. -/
def jsShr (a : Int) (k : Nat) : Int := toInt32 a / 2 ^ k

/-! ### MIDI export service (services/midi-export.ts) -/

/-- `while ((value >>= 7) > 0) { buffer <<= 8; buffer |= 0x80;
buffer += (value & 0x7F); }`, with explicit fuel.  The assignment to
`value` happens before each test, including the first. -/
def vlqBuild : Nat → Int → Int → Option Int
  | 0, _, _ => none
  | fuel + 1, value, buffer =>
      let v := jsShr value 7
      if v > 0 then
        vlqBuild fuel v (jsOr (jsShl buffer 8) 128 + jsAnd v 127)
      else some buffer

/-- `while (true) { result.push(buffer & 0xFF); if (buffer & 0x80)
buffer >>= 8; else break; }`, with explicit fuel. -/
def vlqEmit : Nat → Int → List Int → Option (List Int)
  | 0, _, _ => none
  | fuel + 1, buffer, acc =>
      let acc' := acc ++ [jsAnd buffer 255]
      if jsAnd buffer 128 ≠ 0 then vlqEmit fuel (jsShr buffer 8) acc'
      else some acc'

/-- `encodeVariableLength(value)`.  The fuel of 40 covers every run both
loops can finish (each build step divides a 32-bit value by 128; each
emit step drops a byte); `none` means the source's loop does not
terminate within it. -/
def encodeVariableLength (value : Int) : Option (List Int) :=
  match vlqBuild 40 value (jsAnd value 127) with
  | some buffer => vlqEmit 40 buffer []
  | none => none

/-- Modelled from the spec: the canonical decoder of a variable-length
quantity ("big-endian sequence of 7-bit groups", continuation in the high
bit), which the repository itself does not contain.  Each byte
contributes its low 7 bits. -/
def decodeVLQ (bytes : List Int) : Int :=
  bytes.foldl (fun acc b => acc * 128 + b % 128) 0

/-- The continuation-bit shape the spec requires of an encoded quantity:
every byte but the last has the high bit set (is in `[128, 256)`), the
last has it clear (is in `[0, 128)`). -/
def vlqShape (bytes : List Int) : Bool :=
  bytes.dropLast.all (fun b => 128 ≤ b && b < 256) &&
    match bytes.getLast? with
    | some b => 0 ≤ b && b < 128
    | none => true

/-- The per-octave swar table of `swarToMIDINote` (offsets from the
tonic). -/
def swarNoteTable : List (String × Int) :=
  [ ("सा", 0), ("रे॒", 1), ("रे", 2), ("ग॒", 3), ("ग", 4), ("म", 5),
    ("म॑", 6), ("प", 7), ("ध॒", 8), ("ध", 9), ("नी॒", 10), ("नी", 11) ]

/-- `swarToMIDINote(swar, modifiers)`: table offset from the base octave
60, shifted an octave down/up by the `lower`/`upper` modifier (`lower`
wins when both are present, matching the source's `if/else if`). -/
def swarToMIDINote (swar : String) (modifiers : List String) : Option Int :=
  match swarNoteTable.lookup swar with
  | none => none
  | some off =>
      let octaveShift : Int :=
        if modifiers.contains "lower" then -12
        else if modifiers.contains "upper" then 12
        else 0
      some (60 + off + octaveShift)

/-- The percussion table of `bolToMIDINote`. -/
def bolNoteTable : List (String × Int) :=
  [ ("धा", 36), ("धिं", 38), ("धिर", 40), ("धिन", 39), ("ता", 42),
    ("ति", 44), ("तिं", 46), ("तिरकिट", 49), ("का", 51), ("गे", 50),
    ("ना", 48), ("दिन", 47) ]

/-- `bolToMIDINote(bol)`: `bolMap[bol] || null` (no stored value is 0, so
the falsy fallback is exactly lookup failure). -/
def bolToMIDINote (bol : String) : Option Int :=
  bolNoteTable.lookup bol

/-- `MIDIExportOptions`. -/
structure MIDIExportOptionsM where
  includeTabla : Bool
  includeTanpura : Bool
  tempo : Int
  ticksPerBeat : Int
  velocity : Int
  swarChannel : Int
  tablaChannel : Int
  tanpuraChannel : Int
deriving DecidableEq, Repr

/-- The defaults both export entry points install (with the metadata
tempo fallback of 120). -/
def defaultOptions : MIDIExportOptionsM :=
  ⟨true, false, 120, 480, 80, 0, 9, 1⟩

/-- A note event as the track builders construct it (`tempo` and
`timeSignature` variants of the source interface are never built by the
encoder). -/
structure MEvent where
  isOn : Bool
  time : Int
  note : Int
  velocity : Int
  duration : Option Int
deriving DecidableEq, Repr

/-- `MIDITrack`. -/
structure MTrack where
  name : String
  channel : Int
  instrument : Int
  events : List MEvent
deriving DecidableEq, Repr

/-- The events `createSwarTrack` emits for one cell at `currentTick`:
skip empty cells, rests, continuations, and any swar the note table does
not know. -/
def swarCellEvents (cell : Cell) (tick : Int) (o : MIDIExportOptionsM) : List MEvent :=
  if cell.swar ≠ "" ∧ cell.swar ≠ "-" ∧ cell.swar ≠ "," then
    match swarToMIDINote cell.swar cell.modifiers with
    | some n =>
        [⟨true, tick, n, o.velocity, some o.ticksPerBeat⟩,
         ⟨false, tick + o.ticksPerBeat, n, 0, none⟩]
    | none => []
  else []

/-- The events `createTablaTrack` emits for one cell: half-beat notes
(the source divides the tick count by two; the default of 480 is even),
skipping empty cells, rests, the mute marker `x`, and unknown bols. -/
def tablaCellEvents (cell : Cell) (tick : Int) (o : MIDIExportOptionsM) : List MEvent :=
  if cell.bol ≠ "" ∧ cell.bol ≠ "-" ∧ cell.bol ≠ "x" then
    match bolToMIDINote cell.bol with
    | some n =>
        [⟨true, tick, n, o.velocity, some (o.ticksPerBeat / 2)⟩,
         ⟨false, tick + o.ticksPerBeat / 2, n, 0, none⟩]
    | none => []
  else []

/-- Walk the cells of one row (the header column already dropped),
advancing `currentTick` by a beat per cell whether or not it emitted. -/
def rowEvents (cellEv : Cell → Int → MIDIExportOptionsM → List MEvent)
    (o : MIDIExportOptionsM) : List Cell → Int → List MEvent × Int
  | [], tick => ([], tick)
  | c :: rest, tick =>
      let (more, t') := rowEvents cellEv o rest (tick + o.ticksPerBeat)
      (cellEv c tick o ++ more, t')

/-- Walk all rows in row-major order, threading `currentTick`. -/
def gridEvents (cellEv : Cell → Int → MIDIExportOptionsM → List MEvent)
    (o : MIDIExportOptionsM) : List (List Cell) → Int → List MEvent
  | [], _ => []
  | r :: rs, tick =>
      let (evs, t') := rowEvents cellEv o (r.drop 1) tick
      evs ++ gridEvents cellEv o rs t'

/-- `createSwarTrack`. -/
def createSwarTrack (cells : List (List Cell)) (o : MIDIExportOptionsM) : MTrack :=
  ⟨"Swar (Vocal)", o.swarChannel, 75, gridEvents swarCellEvents o cells 0⟩

/-- `createTablaTrack`. -/
def createTablaTrack (cells : List (List Cell)) (o : MIDIExportOptionsM) : MTrack :=
  ⟨"Tabla", o.tablaChannel, 0, gridEvents tablaCellEvents o cells 0⟩

/-- `stringToBytes`: `charCodeAt` per position (equal to the code point
for the basic-plane characters that occur in track names). -/
def stringToBytes (s : String) : List Int :=
  s.data.map fun c => (c.toNat : Int)

/-- `createNoteEvent(deltaTime, status, note, velocity)`. -/
def createNoteEvent (deltaTime status note velocity : Int) : Option (List Int) :=
  (encodeVariableLength deltaTime).map (· ++ [status, note, velocity])

/-- `createProgramChange(deltaTime, channel, program)`. -/
def createProgramChange (deltaTime channel program : Int) : Option (List Int) :=
  (encodeVariableLength deltaTime).map (· ++ [0xC0 + channel, program])

/-- `Math.round(60000000 / bpm)` for a positive `bpm`: floor of the
quotient plus one half. -/
def microsecondsPerQuarter (bpm : Int) : Int :=
  (120000000 + bpm) / (2 * bpm)

/-- `createTempoEvent(deltaTime, bpm)`. -/
def createTempoEvent (deltaTime bpm : Int) : Option (List Int) :=
  let m := microsecondsPerQuarter bpm
  (encodeVariableLength deltaTime).map
    (· ++ [0xFF, 0x51, 0x03, jsAnd (jsShr m 16) 255, jsAnd (jsShr m 8) 255, jsAnd m 255])

/-- `createMetaEvent(deltaTime, type, data)`. -/
def createMetaEvent (deltaTime type_ : Int) (data : List Int) : Option (List Int) := do
  let dt ← encodeVariableLength deltaTime
  let len ← encodeVariableLength (data.length : Int)
  pure (dt ++ [0xFF, type_] ++ len ++ data)

/-- Stable insertion into a time-sorted list (a later element lands after
earlier elements of equal time, matching the stable `Array.sort` with the
`a.time - b.time` comparator). -/
def insertByTime (e : MEvent) : List MEvent → List MEvent
  | [] => [e]
  | x :: xs => if e.time < x.time then e :: x :: xs else x :: insertByTime e xs

/-- `[...track.events].sort((a, b) => a.time - b.time)`. -/
def sortByTime (l : List MEvent) : List MEvent :=
  l.foldl (fun acc e => insertByTime e acc) []

/-- The delta-time event loop of `buildTrackChunk`: each event is
prefixed with the time elapsed since the previous one, note-offs are
written with velocity 0. -/
def eventStreamBytes (channel : Int) : List MEvent → Int → Option (List Int)
  | [], _ => some []
  | e :: rest, lastTime => do
      let dt := e.time - lastTime
      let bytes ←
        if e.isOn then createNoteEvent dt (0x90 + channel) e.note e.velocity
        else createNoteEvent dt (0x80 + channel) e.note 0
      let tail ← eventStreamBytes channel rest e.time
      pure (bytes ++ tail)

/-- `buildTrackChunk`: name, program and tempo events, the sorted event
stream as deltas, the end-of-track marker, behind the `MTrk` tag and the
4-byte big-endian length.  Storing into the `Uint8Array` truncates every
value modulo 256. -/
def buildTrackChunk (track : MTrack) (o : MIDIExportOptionsM) : Option (List Int) := do
  let nameEv ← createMetaEvent 0 0x03 (stringToBytes track.name)
  let progEv ← createProgramChange 0 track.channel track.instrument
  let tempoEv ← createTempoEvent 0 o.tempo
  let body ← eventStreamBytes track.channel (sortByTime track.events) 0
  let endEv ← createMetaEvent 0 0x2F []
  let events := nameEv ++ progEv ++ tempoEv ++ body ++ endEv
  let len : Int := events.length
  pure ([77, 84, 114, 107,
         jsAnd (jsShr len 24) 255, jsAnd (jsShr len 16) 255,
         jsAnd (jsShr len 8) 255, jsAnd len 255] ++
        events.map (fun b => b % 256))

/-- `buildHeaderChunk(trackCount, ticksPerBeat)`: the fixed 14-byte
header chunk.  Bytes 0-3 are the ASCII codes of `MThd` (77, 84, 104,
100); then the big-endian length 6, format 1, and the two 16-bit
big-endian fields. -/
def buildHeaderChunk (trackCount ticksPerBeat : Int) : List Int :=
  [77, 84, 104, 100, 0, 0, 0, 6, 0, 1,
   jsAnd (jsShr trackCount 8) 255, jsAnd trackCount 255,
   jsAnd (jsShr ticksPerBeat 8) 255, jsAnd ticksPerBeat 255]

/-- `buildMIDIFile(tracks, options)`: header chunk followed by one chunk
per track, concatenated.  There is no precondition on `tracks`; the
function has no failure path of its own (`none` can only arise from the
fueled variable-length encoder inside a track chunk). -/
def buildMIDIFile (tracks : List MTrack) (o : MIDIExportOptionsM) : Option (List Int) := do
  let chunks ← tracks.mapM (fun t => buildTrackChunk t o)
  pure (buildHeaderChunk (tracks.length : Int) o.ticksPerBeat ++ chunks.flatten)

/-- The layer kinds `createLayerTrack` distinguishes. -/
inductive LayerType where
  | vocal
  | tabla
  | tanpura
  | harmonium
  | custom
deriving DecidableEq, Repr

/-- A named layer as `exportLayersToMIDI` consumes it (the fields the
export service reads: name, kind, cell grid, mix volume in `[0, 1]`). -/
structure LayerM where
  name : String
  type_ : LayerType
  cells : List (List Cell)
  volume : ℚ
deriving DecidableEq, Repr

/-- `getInstrumentForLayerType` (the `tabla`/`custom` entries store 0, so
the `|| 0` fallback coincides with them). -/
def instrumentForLayerType : LayerType → Int
  | .vocal => 75
  | .tabla => 0
  | .tanpura => 109
  | .harmonium => 21
  | .custom => 0

/-- The events `createLayerTrack` emits for one cell: melodic layers
(`vocal`/`custom`) go through the swar table with the comma skipped,
`tabla` layers through the bol table, other kinds emit nothing; the note
velocity is `Math.round(options.velocity * layer.volume)` (floor of the
product plus one half, as `round` is). -/
def layerCellEvents (layer : LayerM) (cell : Cell) (tick : Int)
    (o : MIDIExportOptionsM) : List MEvent :=
  match layer.type_ with
  | .vocal | .custom =>
      if cell.swar ≠ "" ∧ cell.swar ≠ "-" ∧ cell.swar ≠ "," then
        match swarToMIDINote cell.swar cell.modifiers with
        | some n =>
            [⟨true, tick, n, round ((o.velocity : ℚ) * layer.volume), some o.ticksPerBeat⟩,
             ⟨false, tick + o.ticksPerBeat, n, 0, none⟩]
        | none => []
      else []
  | .tabla =>
      if cell.bol ≠ "" ∧ cell.bol ≠ "-" then
        match bolToMIDINote cell.bol with
        | some n =>
            [⟨true, tick, n, round ((o.velocity : ℚ) * layer.volume), some (o.ticksPerBeat / 2)⟩,
             ⟨false, tick + o.ticksPerBeat / 2, n, 0, none⟩]
        | none => []
      else []
  | _ => []

/-- `createLayerTrack(layer, index, options)`: channel `index mod 16`. -/
def createLayerTrack (layer : LayerM) (index : Nat) (o : MIDIExportOptionsM) : MTrack :=
  ⟨layer.name, (index % 16 : Nat), instrumentForLayerType layer.type_,
   gridEvents (layerCellEvents layer) o layer.cells 0⟩

/-- `exportLayersToMIDI(layers, grid, options)`: one track per layer,
then `buildMIDIFile` — with no check on the number of layers. -/
def exportLayersToMIDI (layers : List LayerM) (o : MIDIExportOptionsM) : Option (List Int) :=
  buildMIDIFile ((layers.enum).map fun li => createLayerTrack li.2 li.1 o) o

/-! ### Arithmetic reductions of the JavaScript bitwise operators

On arguments that stay inside `[0, 2^31)` the wrapped operators reduce to
plain division, remainder and addition; these lemmas state those
reductions together with the bounds they need. -/

lemma toInt32_eq (a : Int) (h0 : 0 ≤ a) (h1 : a < 2 ^ 31) : toInt32 a = a := by
  unfold toInt32
  omega

lemma bits32_eq (a : Int) (h0 : 0 ≤ a) (h1 : a < 2 ^ 31) : bits32 a = a.toNat := by
  unfold bits32
  omega

lemma jsAnd_127 (a : Int) (h0 : 0 ≤ a) (h1 : a < 2 ^ 31) : jsAnd a 127 = a % 128 := by
  unfold jsAnd
  rw [bits32_eq a h0 h1, (show bits32 127 = 127 from rfl)]
  have hmask : a.toNat &&& 127 = a.toNat % 128 := by
    have := Nat.and_pow_two_sub_one_eq_mod a.toNat 7
    norm_num at this
    exact this
  rw [hmask, toInt32_eq _ (by positivity) (by omega)]
  omega

lemma jsAnd_255 (a : Int) (h0 : 0 ≤ a) (h1 : a < 2 ^ 31) : jsAnd a 255 = a % 256 := by
  unfold jsAnd
  rw [bits32_eq a h0 h1, (show bits32 255 = 255 from rfl)]
  have hmask : a.toNat &&& 255 = a.toNat % 256 := by
    have := Nat.and_pow_two_sub_one_eq_mod a.toNat 8
    norm_num at this
    exact this
  rw [hmask, toInt32_eq _ (by positivity) (by omega)]
  omega

lemma jsShr_eq (a : Int) (k : Nat) (h0 : 0 ≤ a) (h1 : a < 2 ^ 31) :
    jsShr a k = a / 2 ^ k := by
  unfold jsShr
  rw [toInt32_eq a h0 h1]

lemma jsShl_8 (a : Int) (h0 : 0 ≤ a) (h1 : a * 256 < 2 ^ 31) :
    jsShl a 8 = a * 256 := by
  unfold jsShl
  rw [bits32_eq a h0 (by omega), Nat.shiftLeft_eq]
  rw [toInt32_eq _ (by positivity) (by norm_num; omega)]
  norm_num
  omega

lemma nat_lor_128 (m : Nat) (h : m % 256 = 0) : m ||| 128 = m + 128 := by
  obtain ⟨q, rfl⟩ : ∃ q, m = 256 * q := ⟨m / 256, by omega⟩
  apply Nat.eq_of_testBit_eq
  intro i
  rw [Nat.testBit_lor]
  have h256 : (256 : Nat) * q = 2 ^ 8 * q := by ring
  rw [h256, Nat.testBit_mul_pow_two_add q (show (128 : Nat) < 2 ^ 8 by norm_num) i,
    Nat.testBit_mul_pow_two]
  rcases Nat.lt_or_ge i 8 with hi | hi
  · simp [hi, Nat.not_le.mpr hi]
  · have hbit : Nat.testBit 128 i = false :=
      Nat.testBit_lt_two_pow (by calc (128 : Nat) < 2 ^ 8 := by norm_num
                                   _ ≤ 2 ^ i := Nat.pow_le_pow_right (by norm_num) hi)
    simp [hbit, hi, Nat.not_lt.mpr hi]

lemma jsOr_128 (a : Int) (h0 : 0 ≤ a) (h1 : a < 2 ^ 31) (h2 : a % 256 = 0) :
    jsOr a 128 = a + 128 := by
  unfold jsOr
  rw [bits32_eq a h0 h1, (show bits32 128 = 128 from rfl)]
  rw [nat_lor_128 a.toNat (by omega)]
  rw [toInt32_eq _ (by positivity) (by omega)]
  omega

lemma jsAnd_128_ne (a : Int) (h0 : 0 ≤ a) (h1 : a < 2 ^ 31) :
    (jsAnd a 128 ≠ 0) ↔ 128 ≤ a % 256 := by
  unfold jsAnd
  rw [bits32_eq a h0 h1, (show bits32 128 = 128 from rfl)]
  have hand : a.toNat &&& 128 = (a.toNat.testBit 7).toNat * 128 := by
    have := Nat.and_two_pow a.toNat 7
    norm_num at this
    exact this
  rw [hand, Nat.testBit_to_div_mod]
  by_cases h : a.toNat / 2 ^ 7 % 2 = 1
  · norm_num at h
    simp only [h, decide_True, Bool.toNat_true, one_mul]
    rw [(show toInt32 ((128 : Nat) : Int) = 128 by decide)]
    constructor
    · intro _
      omega
    · intro _
      norm_num
  · norm_num at h
    simp only [h, decide_False, Bool.toNat_false, zero_mul]
    simp only [(show decide ((0 : Nat) = 1) = false from rfl), Bool.toNat_false, zero_mul,
      Nat.cast_zero]
    rw [(show toInt32 0 = 0 by decide)]
    constructor
    · intro hc
      exact absurd rfl hc
    · intro hc
      exfalso
      omega

/-! ### Symbolic execution of the variable-length-quantity loops -/

lemma vlqBuild_go (fuel : Nat) (value buffer : Int)
    (hv1 : value < 2 ^ 31) (hq : 128 ≤ value)
    (hb0 : 0 ≤ buffer) (hb1 : buffer * 256 < 2 ^ 31) :
    vlqBuild (fuel + 1) value buffer =
      vlqBuild fuel (value / 128) (buffer * 256 + 128 + value / 128 % 128) := by
  simp only [vlqBuild]
  rw [jsShr_eq value 7 (by omega) hv1, (show (2 : Int) ^ 7 = 128 by norm_num)]
  rw [if_pos (show value / 128 > 0 by omega)]
  rw [jsShl_8 buffer hb0 hb1]
  rw [jsOr_128 (buffer * 256) (by positivity) hb1 (by omega)]
  rw [jsAnd_127 (value / 128) (by omega) (by omega)]

lemma vlqBuild_stop (fuel : Nat) (value buffer : Int)
    (h0 : 0 ≤ value) (h1 : value < 128) :
    vlqBuild (fuel + 1) value buffer = some buffer := by
  simp only [vlqBuild]
  rw [jsShr_eq value 7 h0 (by omega), (show (2 : Int) ^ 7 = 128 by norm_num)]
  rw [if_neg (show ¬ value / 128 > 0 by omega)]

lemma vlqEmit_cont (fuel : Nat) (b : Int) (acc : List Int)
    (h0 : 0 ≤ b) (h1 : b < 2 ^ 31) (h : 128 ≤ b % 256) :
    vlqEmit (fuel + 1) b acc = vlqEmit fuel (b / 256) (acc ++ [b % 256]) := by
  simp only [vlqEmit]
  rw [jsAnd_255 b h0 h1]
  rw [if_pos ((jsAnd_128_ne b h0 h1).mpr h)]
  rw [jsShr_eq b 8 h0 h1, (show (2 : Int) ^ 8 = 256 by norm_num)]

lemma vlqEmit_stop (fuel : Nat) (b : Int) (acc : List Int)
    (h0 : 0 ≤ b) (h1 : b < 2 ^ 31) (h : b % 256 < 128) :
    vlqEmit (fuel + 1) b acc = some (acc ++ [b % 256]) := by
  simp only [vlqEmit]
  rw [jsAnd_255 b h0 h1]
  have hz : ¬ jsAnd b 128 ≠ 0 := by
    rw [not_not]
    by_contra hc
    exact absurd ((jsAnd_128_ne b h0 h1).mp hc) (by omega)
  rw [if_neg hz]

lemma encode_eq (v B : Int) (h : vlqBuild 40 v (jsAnd v 127) = some B) :
    encodeVariableLength v = vlqEmit 40 B [] := by
  unfold encodeVariableLength
  rw [h]

lemma encodeVLQ_r1 (v : Int) (h0 : 0 ≤ v) (h1 : v < 128) :
    encodeVariableLength v = some [v] := by
  have hB : vlqBuild 40 v (jsAnd v 127) = some v := by
    rw [jsAnd_127 v h0 (by omega), (show v % 128 = v by omega)]
    rw [(show (40 : Nat) = 39 + 1 from rfl)]
    exact vlqBuild_stop 39 v v h0 h1
  rw [encode_eq v v hB]
  rw [(show (40 : Nat) = 39 + 1 from rfl)]
  rw [vlqEmit_stop 39 v [] h0 (by omega) (by omega)]
  simp only [List.nil_append]
  rw [(show v % 256 = v by omega)]

lemma encodeVLQ_r2 (v : Int) (h0 : 128 ≤ v) (h1 : v < 16384) :
    encodeVariableLength v = some [128 + v / 128, v % 128] := by
  have hB : vlqBuild 40 v (jsAnd v 127) =
      some (v % 128 * 256 + 128 + v / 128 % 128) := by
    rw [jsAnd_127 v (by omega) (by omega)]
    rw [(show (40 : Nat) = 38 + 1 + 1 from rfl)]
    rw [vlqBuild_go (38 + 1) v (v % 128) (by omega) h0 (by omega) (by omega)]
    exact vlqBuild_stop 38 _ _ (by omega) (by omega)
  rw [encode_eq v _ hB]
  clear hB
  rw [(show v / 128 % 128 = v / 128 by omega)]
  have hxb : 0 ≤ v % 128 ∧ v % 128 < 128 := by omega
  have hdb : 0 < v / 128 ∧ v / 128 < 128 := by omega
  generalize hx : v % 128 = x at hxb ⊢
  generalize hd : v / 128 = d at hdb ⊢
  obtain ⟨hx0, hx1⟩ := hxb
  obtain ⟨hd0, hd1⟩ := hdb
  clear hx hd h0 h1
  rw [(show (40 : Nat) = 38 + 1 + 1 from rfl)]
  rw [vlqEmit_cont (38 + 1) _ [] (by omega) (by omega) (by omega)]
  rw [vlqEmit_stop 38 _ _ (by omega) (by omega) (by omega)]
  simp only [List.nil_append, List.cons_append, List.singleton_append, Option.some.injEq,
    List.cons.injEq, and_true]
  constructor <;> omega

lemma encodeVLQ_r3 (v : Int) (h0 : 16384 ≤ v) (h1 : v < 2097152) :
    encodeVariableLength v = some [128 + v / 16384, 128 + v / 128 % 128, v % 128] := by
  have hB : vlqBuild 40 v (jsAnd v 127) =
      some ((v % 128 * 256 + 128 + v / 128 % 128) * 256 + 128 + v / 128 / 128 % 128) := by
    rw [jsAnd_127 v (by omega) (by omega)]
    rw [(show (40 : Nat) = 37 + 1 + 1 + 1 from rfl)]
    rw [vlqBuild_go (37 + 1 + 1) v (v % 128) (by omega) (by omega) (by omega) (by omega)]
    rw [vlqBuild_go (37 + 1) (v / 128) _ (by omega) (by omega) (by omega) (by omega)]
    exact vlqBuild_stop 37 _ _ (by omega) (by omega)
  rw [encode_eq v _ hB]
  clear hB
  rw [(show v / 128 / 128 = v / 16384 by omega)]
  rw [(show v / 16384 % 128 = v / 16384 by omega)]
  have hxb : 0 ≤ v % 128 ∧ v % 128 < 128 := by omega
  have hyb : 0 ≤ v / 128 % 128 ∧ v / 128 % 128 < 128 := by omega
  have hdb : 0 < v / 16384 ∧ v / 16384 < 128 := by omega
  generalize hx : v % 128 = x at hxb ⊢
  generalize hy : v / 128 % 128 = y at hyb ⊢
  generalize hd : v / 16384 = d at hdb ⊢
  obtain ⟨hx0, hx1⟩ := hxb
  obtain ⟨hy0, hy1⟩ := hyb
  obtain ⟨hd0, hd1⟩ := hdb
  clear hx hy hd h0 h1
  rw [(show (40 : Nat) = 37 + 1 + 1 + 1 from rfl)]
  rw [vlqEmit_cont (37 + 1 + 1) _ [] (by omega) (by omega) (by omega)]
  rw [vlqEmit_cont (37 + 1) _ _ (by omega) (by omega) (by omega)]
  rw [vlqEmit_stop 37 _ _ (by omega) (by omega) (by omega)]
  simp only [List.nil_append, List.cons_append, List.singleton_append, Option.some.injEq,
    List.cons.injEq, and_true]
  refine ⟨by omega, by omega, by omega⟩

lemma encodeVLQ_r4 (v : Int) (h0 : 2097152 ≤ v) (h1 : v < 268435456) :
    encodeVariableLength v =
      some [128 + v / 2097152, 128 + v / 16384 % 128, 128 + v / 128 % 128, v % 128] := by
  have hB : vlqBuild 40 v (jsAnd v 127) =
      some (((v % 128 * 256 + 128 + v / 128 % 128) * 256 + 128 + v / 128 / 128 % 128) * 256
        + 128 + v / 128 / 128 / 128 % 128) := by
    rw [jsAnd_127 v (by omega) (by omega)]
    rw [(show (40 : Nat) = 36 + 1 + 1 + 1 + 1 from rfl)]
    rw [vlqBuild_go (36 + 1 + 1 + 1) v (v % 128) (by omega) (by omega) (by omega) (by omega)]
    rw [vlqBuild_go (36 + 1 + 1) (v / 128) _ (by omega) (by omega) (by omega) (by omega)]
    rw [vlqBuild_go (36 + 1) (v / 128 / 128) _ (by omega) (by omega) (by omega) (by omega)]
    exact vlqBuild_stop 36 _ _ (by omega) (by omega)
  rw [encode_eq v _ hB]
  clear hB
  rw [(show v / 128 / 128 = v / 16384 by omega)]
  rw [(show v / 16384 / 128 = v / 2097152 by omega)]
  rw [(show v / 2097152 % 128 = v / 2097152 by omega)]
  have hxb : 0 ≤ v % 128 ∧ v % 128 < 128 := by omega
  have hyb : 0 ≤ v / 128 % 128 ∧ v / 128 % 128 < 128 := by omega
  have hzb : 0 ≤ v / 16384 % 128 ∧ v / 16384 % 128 < 128 := by omega
  have hdb : 0 < v / 2097152 ∧ v / 2097152 < 128 := by omega
  generalize hx : v % 128 = x at hxb ⊢
  generalize hy : v / 128 % 128 = y at hyb ⊢
  generalize hz : v / 16384 % 128 = z at hzb ⊢
  generalize hd : v / 2097152 = d at hdb ⊢
  obtain ⟨hx0, hx1⟩ := hxb
  obtain ⟨hy0, hy1⟩ := hyb
  obtain ⟨hz0, hz1⟩ := hzb
  obtain ⟨hd0, hd1⟩ := hdb
  clear hx hy hz hd h0 h1
  rw [(show (40 : Nat) = 36 + 1 + 1 + 1 + 1 from rfl)]
  rw [vlqEmit_cont (36 + 1 + 1 + 1) _ [] (by omega) (by omega) (by omega)]
  rw [vlqEmit_cont (36 + 1 + 1) _ _ (by omega) (by omega) (by omega)]
  rw [vlqEmit_cont (36 + 1) _ _ (by omega) (by omega) (by omega)]
  rw [vlqEmit_stop 36 _ _ (by omega) (by omega) (by omega)]
  simp only [List.nil_append, List.cons_append, List.singleton_append, Option.some.injEq,
    List.cons.injEq, and_true]
  refine ⟨by omega, by omega, by omega, by omega⟩

/-! ### Claims -/

/-- C6 (amended): on `[0, 2^28)` — exactly the domain a four-byte MIDI
variable-length quantity can represent — the encoder terminates, the
canonical decoder inverts it, and every produced byte except the last
has its continuation bit set while the last has it clear. -/
theorem C6_vlq_roundtrip_in_range (v : Int) (h0 : 0 ≤ v) (h1 : v < 268435456) :
    ∃ bs, encodeVariableLength v = some bs ∧ decodeVLQ bs = v ∧ vlqShape bs = true := by
  rcases lt_or_le v 128 with hr | hr2
  · refine ⟨[v], encodeVLQ_r1 v h0 hr, ?_, ?_⟩
    · simp only [decodeVLQ, List.foldl]
      omega
    · simp only [vlqShape, List.dropLast_single, List.all_nil, List.getLast?_singleton,
        Bool.and_eq_true, decide_eq_true_eq, true_and]
      omega
  · rcases lt_or_le v 16384 with hr | hr3
    · refine ⟨_, encodeVLQ_r2 v hr2 hr, ?_, ?_⟩
      · have hrec : v = v / 128 * 128 + v % 128 := by omega
        have hdb : 0 < v / 128 ∧ v / 128 < 128 := by omega
        have hxb : 0 ≤ v % 128 ∧ v % 128 < 128 := by omega
        generalize hd : v / 128 = d at hrec hdb
        generalize hx : v % 128 = x at hrec hxb
        clear hd hx h0 h1 hr hr2
        simp only [decodeVLQ, List.foldl]
        omega
      · have hdb : 0 < v / 128 ∧ v / 128 < 128 := by omega
        have hxb : 0 ≤ v % 128 ∧ v % 128 < 128 := by omega
        generalize hd : v / 128 = d at hdb
        generalize hx : v % 128 = x at hxb
        clear hd hx h0 h1 hr hr2
        simp only [vlqShape, List.dropLast_cons₂, List.dropLast_single, List.all_cons,
          List.all_nil, List.getLast?_cons_cons, List.getLast?_singleton,
          Bool.and_eq_true, decide_eq_true_eq, and_true, true_and]
        omega
    · rcases lt_or_le v 2097152 with hr | hr4
      · refine ⟨_, encodeVLQ_r3 v hr3 hr, ?_, ?_⟩
        · have hrec : v = (v / 16384 * 128 + v / 128 % 128) * 128 + v % 128 := by omega
          have hdb : 0 < v / 16384 ∧ v / 16384 < 128 := by omega
          have hyb : 0 ≤ v / 128 % 128 ∧ v / 128 % 128 < 128 := by omega
          have hxb : 0 ≤ v % 128 ∧ v % 128 < 128 := by omega
          generalize hd : v / 16384 = d at hrec hdb
          generalize hy : v / 128 % 128 = y at hrec hyb
          generalize hx : v % 128 = x at hrec hxb
          clear hd hy hx h0 h1 hr hr2 hr3
          simp only [decodeVLQ, List.foldl]
          omega
        · have hdb : 0 < v / 16384 ∧ v / 16384 < 128 := by omega
          have hyb : 0 ≤ v / 128 % 128 ∧ v / 128 % 128 < 128 := by omega
          have hxb : 0 ≤ v % 128 ∧ v % 128 < 128 := by omega
          generalize hd : v / 16384 = d at hdb
          generalize hy : v / 128 % 128 = y at hyb
          generalize hx : v % 128 = x at hxb
          clear hd hy hx h0 h1 hr hr2 hr3
          simp only [vlqShape, List.dropLast_cons₂, List.dropLast_single, List.all_cons,
            List.all_nil, List.getLast?_cons_cons, List.getLast?_singleton,
            Bool.and_eq_true, decide_eq_true_eq, and_true, true_and]
          omega
      · refine ⟨_, encodeVLQ_r4 v hr4 h1, ?_, ?_⟩
        · have hrec :
              v = ((v / 2097152 * 128 + v / 16384 % 128) * 128 + v / 128 % 128) * 128
                + v % 128 := by omega
          have hdb : 0 < v / 2097152 ∧ v / 2097152 < 128 := by omega
          have hzb : 0 ≤ v / 16384 % 128 ∧ v / 16384 % 128 < 128 := by omega
          have hyb : 0 ≤ v / 128 % 128 ∧ v / 128 % 128 < 128 := by omega
          have hxb : 0 ≤ v % 128 ∧ v % 128 < 128 := by omega
          generalize hd : v / 2097152 = d at hrec hdb
          generalize hz : v / 16384 % 128 = z at hrec hzb
          generalize hy : v / 128 % 128 = y at hrec hyb
          generalize hx : v % 128 = x at hrec hxb
          clear hd hz hy hx h0 h1 hr2 hr3 hr4
          simp only [decodeVLQ, List.foldl]
          omega
        · have hdb : 0 < v / 2097152 ∧ v / 2097152 < 128 := by omega
          have hzb : 0 ≤ v / 16384 % 128 ∧ v / 16384 % 128 < 128 := by omega
          have hyb : 0 ≤ v / 128 % 128 ∧ v / 128 % 128 < 128 := by omega
          have hxb : 0 ≤ v % 128 ∧ v % 128 < 128 := by omega
          generalize hd : v / 2097152 = d at hdb
          generalize hz : v / 16384 % 128 = z at hzb
          generalize hy : v / 128 % 128 = y at hyb
          generalize hx : v % 128 = x at hxb
          clear hd hz hy hx h0 h1 hr2 hr3 hr4
          simp only [vlqShape, List.dropLast_cons₂, List.dropLast_single, List.all_cons,
            List.all_nil, List.getLast?_cons_cons, List.getLast?_singleton,
            Bool.and_eq_true, decide_eq_true_eq, and_true, true_and]
          omega


/-- C6 counterexample: the claim quantifies over every non-negative
integer, but at `2^31` the encoder's 32-bit arithmetic collapses the
value: it terminates with the single byte `0x00`, which decodes to 0,
not `2^31`. -/
theorem C6_counterexample_two_pow_31 :
    encodeVariableLength 2147483648 = some [0] ∧ decodeVLQ [0] = 0 ∧
      (0 : Int) ≠ 2147483648 := by decide

/-- C6 witness: the round-trip theorem applied at 2097151. -/
theorem C6_witness :
    ∃ bs, encodeVariableLength 2097151 = some bs ∧ decodeVLQ bs = 2097151 ∧
      vlqShape bs = true :=
  C6_vlq_roundtrip_in_range 2097151 (by norm_num) (by norm_num)

/-- On a fresh service (no history, index −1) a snapshot stores the
current grid as the single entry at index 0. -/
lemma saveState_fresh (s : ServiceState) (h1 : s.history = []) (h2 : s.historyIndex = -1) :
    saveState s = { s with history := [s.grid], historyIndex := 0 } := by
  unfold saveState
  rw [h1, h2]
  norm_num [MAX_HISTORY]

/-- `undo()` refuses whenever the history index is not positive. -/
lemma undo_nonpos (s : ServiceState) (h : s.historyIndex ≤ 0) : undo s = (false, s) := by
  unfold undo
  rw [if_neg (by omega)]

/-- C4: for the 16-beat meter (vibhags `[4,4,4,4]`, markers
`[X,2,0,3]`) the column beat-label function returns the empty string at
column 0, `X` at 1, `2` at 2 (the absolute beat number), the markers
`2`, `0`, `3` at columns 5, 9, 13, and `16` at column 16. -/
theorem C4_teen_beat_labels :
    getTaalMarker teenTaal 0 = "" ∧ getTaalMarker teenTaal 1 = "X" ∧
    getTaalMarker teenTaal 2 = "2" ∧ getTaalMarker teenTaal 5 = "2" ∧
    getTaalMarker teenTaal 9 = "0" ∧ getTaalMarker teenTaal 13 = "3" ∧
    getTaalMarker teenTaal 16 = "16" := by decide

/-- C5: on every playback tick the column advances by 1; when it reaches
the column count it resets to 1 and the row advances; when the row
reaches the row count it wraps to 0 unconditionally.  On a 2-row grid
with 4 musical beats per row (5 columns including the header) a cursor
at (0,1) is at (1,1) after 4 ticks and back at (0,1) after 8. -/
theorem C5_tick_advance_and_wrap :
    (∀ (cur : Cursor) (cc rc : Nat), cur.col + 1 < cc →
      tickStep cc rc cur = ⟨cur.row, cur.col + 1, cur.beat + 1⟩) ∧
    (∀ (cur : Cursor) (cc rc : Nat), cur.col + 1 ≥ cc → cur.row + 1 < rc →
      tickStep cc rc cur = ⟨cur.row + 1, 1, cur.beat + 1⟩) ∧
    (∀ (cur : Cursor) (cc rc : Nat), cur.col + 1 ≥ cc → cur.row + 1 ≥ rc →
      tickStep cc rc cur = ⟨0, 1, 0⟩) ∧
    runTicks 5 2 4 ⟨0, 1, 0⟩ = ⟨1, 1, 4⟩ ∧
    runTicks 5 2 8 ⟨0, 1, 0⟩ = ⟨0, 1, 0⟩ := by
  refine ⟨?_, ?_, ?_, by decide, by decide⟩
  · intro cur cc rc h
    simp only [tickStep]
    rw [if_neg (by omega)]
  · intro cur cc rc h1 h2
    simp only [tickStep]
    rw [if_pos (by omega), if_neg (by omega)]
  · intro cur cc rc h1 h2
    simp only [tickStep]
    rw [if_pos (by omega), if_pos (by omega)]

/-- C5 witness: the plain-advance case of the tick theorem at (0,1) on
the 5-column 2-row grid. -/
theorem C5_witness : tickStep 5 2 ⟨0, 1, 0⟩ = ⟨0, 2, 1⟩ := by
  have h := C5_tick_advance_and_wrap.1 ⟨0, 1, 0⟩ 5 2 (by norm_num)
  simpa using h

/-- C7: the encoded header chunk is always exactly 14 bytes, and for
every track count and ticks-per-quarter-note representable in their
16-bit fields it is the ASCII tag `MThd` (77,84,104,100), the 4-byte
big-endian length 6, the 2-byte format 1, and the two 2-byte big-endian
fields. -/
theorem C7_header_chunk (trackCount ticksPerBeat : Int) :
    (buildHeaderChunk trackCount ticksPerBeat).length = 14 ∧
    (0 ≤ trackCount → trackCount < 65536 → 0 ≤ ticksPerBeat → ticksPerBeat < 65536 →
      buildHeaderChunk trackCount ticksPerBeat =
        [77, 84, 104, 100, 0, 0, 0, 6, 0, 1,
         trackCount / 256, trackCount % 256, ticksPerBeat / 256, ticksPerBeat % 256]) := by
  constructor
  · rfl
  · intro h0 h1 h2 h3
    unfold buildHeaderChunk
    rw [jsShr_eq trackCount 8 h0 (by omega), jsShr_eq ticksPerBeat 8 h2 (by omega)]
    rw [(show (2 : Int) ^ 8 = 256 by norm_num)]
    rw [jsAnd_255 (trackCount / 256) (by omega) (by omega),
        jsAnd_255 trackCount h0 (by omega),
        jsAnd_255 (ticksPerBeat / 256) (by omega) (by omega),
        jsAnd_255 ticksPerBeat h2 (by omega)]
    rw [(show trackCount / 256 % 256 = trackCount / 256 by omega),
        (show ticksPerBeat / 256 % 256 = ticksPerBeat / 256 by omega)]

/-- C7 witness: the header theorem applied at 2 tracks and 480 ticks. -/
theorem C7_witness :
    buildHeaderChunk 2 480 = [77, 84, 104, 100, 0, 0, 0, 6, 0, 1, 0, 2, 1, 224] := by
  have h := (C7_header_chunk 2 480).2 (by norm_num) (by norm_num) (by norm_num) (by norm_num)
  simpa using h

/-- C8: the swar table is a fixed 12-slot table anchored at note 60 for
the tonic; for every swar the table knows, mapping with the upper
modifier adds 12 and with the lower modifier subtracts 12 relative to no
octave modifier; a swar outside the table maps to no note under any
modifiers. -/
theorem C8_swar_octave_symmetry :
    swarNoteTable.length = 12 ∧
    swarToMIDINote "सा" [] = some 60 ∧
    (∀ s n, swarToMIDINote s [] = some n →
      swarToMIDINote s ["upper"] = some (n + 12) ∧
      swarToMIDINote s ["lower"] = some (n - 12)) ∧
    (∀ s mods, swarToMIDINote s [] = none → swarToMIDINote s mods = none) := by
  refine ⟨rfl, by decide, ?_, ?_⟩
  · intro s n h
    cases hl : swarNoteTable.lookup s with
    | none => simp [swarToMIDINote, hl] at h
    | some off =>
        simp [swarToMIDINote, hl] at h ⊢
        omega
  · intro s mods h
    cases hl : swarNoteTable.lookup s with
    | none => simp [swarToMIDINote, hl]
    | some off => simp [swarToMIDINote, hl] at h

/-- C8 witness: octave symmetry applied to the second scale degree. -/
theorem C8_witness :
    swarToMIDINote "रे" ["upper"] = some (62 + 12) ∧
    swarToMIDINote "रे" ["lower"] = some (62 - 12) :=
  C8_swar_octave_symmetry.2.2.1 "रे" 62 (by decide)

/-- C2 (amended): the swar of a triggered cell is handed to the melodic
collaborator (with its modifiers and the tick duration) iff it is
non-empty and not the rest marker `-` — the continuation marker `,` is
NOT excluded by the source; the bol is handed to the percussion
collaborator iff non-empty and not `-`; a cell with neither triggers
nothing. -/
theorem C2_trigger_conditions (cell : Cell) (d : ℚ) :
    (TriggerCall.swarCall cell.swar cell.modifiers (d / 1000) ∈ playCell cell d ↔
      cell.swar ≠ "" ∧ cell.swar ≠ "-") ∧
    (TriggerCall.bolCall cell.bol (d / 1000) ∈ playCell cell d ↔
      cell.bol ≠ "" ∧ cell.bol ≠ "-") ∧
    (cell.swar = "" → cell.bol = "" → playCell cell d = []) := by
  unfold playCell
  by_cases h1 : cell.swar = "" <;> by_cases h2 : cell.swar = "-" <;>
    by_cases h3 : cell.bol = "" <;> by_cases h4 : cell.bol = "-" <;>
      simp [h1, h2, h3, h4]

/-- C2 counterexample: a cell whose swar is the continuation marker `,`
IS handed to the melodic-sound collaborator — the source's guard checks
only for the empty string and `-`, so the claimed "and is not the
continuation marker" condition fails. -/
theorem C2_counterexample_comma_swar :
    playCell ⟨",", "", [], false⟩ 500 = [TriggerCall.swarCall "," [] (500 / 1000)] ∧
    playCell ⟨",", "", [], false⟩ 500 ≠ [] := by
  constructor <;> simp [playCell]

/-- C2 witness: the no-op conjunct of the trigger theorem at an empty
cell. -/
theorem C2_witness : playCell ⟨"", "", [], false⟩ 500 = [] :=
  (C2_trigger_conditions ⟨"", "", [], false⟩ 500).2.2 rfl rfl

/-- C3 (amended): the encoder never fails — including on zero tracks,
where instead of surfacing an invalid-input error it produces the
header-only buffer declaring zero tracks (both for `buildMIDIFile` and
for `exportLayersToMIDI` with no layers); malformed content is skipped
silently: a cell whose swar or bol the note tables do not know emits no
events. -/
theorem C3_no_failure_and_skip (o : MIDIExportOptionsM) :
    buildMIDIFile [] o = some (buildHeaderChunk 0 o.ticksPerBeat) ∧
    exportLayersToMIDI [] o = some (buildHeaderChunk 0 o.ticksPerBeat) ∧
    (∀ cell tick, swarToMIDINote cell.swar cell.modifiers = none →
      swarCellEvents cell tick o = []) ∧
    (∀ cell tick, bolToMIDINote cell.bol = none → tablaCellEvents cell tick o = []) := by
  have hnil : List.mapM.loop (fun t => buildTrackChunk t o) [] [] = some [] := rfl
  refine ⟨?_, ?_, ?_, ?_⟩
  · simp [buildMIDIFile, hnil]
  · simp [exportLayersToMIDI, buildMIDIFile, hnil]
  · intro cell tick h
    simp [swarCellEvents, h]
  · intro cell tick h
    simp [tablaCellEvents, h]

/-- C3 counterexample: with zero tracks the encoder returns a byte
buffer (the 14-byte header with track-count bytes 0,0), not an error —
there is no zero-track precondition anywhere in the source. -/
theorem C3_counterexample_zero_tracks :
    buildMIDIFile [] defaultOptions =
      some [77, 84, 104, 100, 0, 0, 0, 6, 0, 1, 0, 0, 1, 224] := by decide

/-- C3 witness: the unknown-swar conjunct applied to a cell holding the
unmapped symbol `Q`. -/
theorem C3_witness :
    swarCellEvents ⟨"Q", "", [], false⟩ 0 defaultOptions = [] :=
  (C3_no_failure_and_skip defaultOptions).2.2.1 ⟨"Q", "", [], false⟩ 0 (by decide)

/-- C9 (amended): starting from a selection inside the grid (row in
`[0, rows)`, column in `[1, maxCol]`), any finite sequence of moves
keeps it inside — the column never becomes 0, the row never negative,
and the row never reaches the row count.  (The unrestricted claim is
false: no move clamps an out-of-range row back into range.) -/
theorem C9_moveSelection_bounds (rows maxCol : Int) (p : CellPos) (ds : List MoveDir)
    (h0 : 0 ≤ p.row) (h1 : p.row < rows) (h2 : 1 ≤ p.col) (h3 : p.col ≤ maxCol) :
    0 ≤ (ds.foldl (moveSelection rows maxCol) p).row ∧
    (ds.foldl (moveSelection rows maxCol) p).row < rows ∧
    1 ≤ (ds.foldl (moveSelection rows maxCol) p).col ∧
    (ds.foldl (moveSelection rows maxCol) p).col ≤ maxCol := by
  induction ds generalizing p with
  | nil => simpa using ⟨h0, h1, h2, h3⟩
  | cons d rest ih =>
      simp only [List.foldl_cons]
      refine ih (moveSelection rows maxCol p d) ?_ ?_ ?_ ?_ <;>
        cases d <;> simp only [moveSelection] <;> omega

/-- C9 counterexample: from starting position (5, 1) — a position with
`col ≥ 1` as the data model requires — on a 2-row grid, a left move
leaves the selection at row 5 ≥ rowCount: `moveSelection` does not clamp
a row that is already out of range. -/
theorem C9_counterexample_row_not_clamped :
    moveSelection 2 4 ⟨5, 1⟩ MoveDir.left = ⟨5, 1⟩ ∧
    ¬ (moveSelection 2 4 ⟨5, 1⟩ MoveDir.left).row < 2 := by decide

/-- C9 witness: the bounds theorem applied to the in-range start (0,1)
and the move sequence up, left. -/
theorem C9_witness :
    0 ≤ (([MoveDir.up, MoveDir.left]).foldl (moveSelection 2 4) ⟨0, 1⟩).row ∧
    (([MoveDir.up, MoveDir.left]).foldl (moveSelection 2 4) ⟨0, 1⟩).row < 2 ∧
    1 ≤ (([MoveDir.up, MoveDir.left]).foldl (moveSelection 2 4) ⟨0, 1⟩).col ∧
    (([MoveDir.up, MoveDir.left]).foldl (moveSelection 2 4) ⟨0, 1⟩).col ≤ 4 :=
  C9_moveSelection_bounds 2 4 ⟨0, 1⟩ [MoveDir.up, MoveDir.left]
    (by norm_num) (by norm_num) (by norm_num) (by norm_num)

/-- C10: from the freshly initialized service (empty history, index −1),
after one `setCellSwar` the `undo()` call returns false and leaves the
state untouched; when the mutation hit a valid non-header cell the
history then holds exactly the one pre-mutation snapshot at index 0, so
the very first mutation can never be undone. -/
theorem C10_first_mutation_not_undoable (row col : Nat) (v : String) :
    (undo (setCellSwar row col v initState)).1 = false ∧
    (undo (setCellSwar row col v initState)).2 = setCellSwar row col v initState ∧
    ((getCell initState row col).isSome → 0 < col →
      (setCellSwar row col v initState).history = [initState.grid] ∧
      (setCellSwar row col v initState).historyIndex = 0) := by
  by_cases h0 : 0 < col
  · cases hc : getCell initState row col with
    | none =>
        simp only [setCellSwar, mutateCell, hc]
        rw [undo_nonpos initState (by decide)]
        exact ⟨rfl, rfl, fun hs _ => by simp at hs⟩
    | some c =>
        simp only [setCellSwar, mutateCell, hc]
        rw [if_pos h0]
        rw [saveState_fresh initState rfl rfl]
        rw [undo_nonpos _ (le_refl 0)]
        exact ⟨rfl, rfl, fun _ _ => ⟨rfl, rfl⟩⟩
  · cases hc : getCell initState row col with
    | none =>
        simp only [setCellSwar, mutateCell, hc]
        rw [undo_nonpos initState (by decide)]
        exact ⟨rfl, rfl, fun _ hcol => absurd hcol h0⟩
    | some c =>
        simp only [setCellSwar, mutateCell, hc]
        rw [if_neg h0]
        rw [undo_nonpos initState (by decide)]
        exact ⟨rfl, rfl, fun _ hcol => absurd hcol h0⟩

/-- C10 witness: the theorem applied to the first musical cell of the
fresh grid. -/
theorem C10_witness :
    (undo (setCellSwar 0 1 "s" initState)).1 = false ∧
    (setCellSwar 0 1 "s" initState).history = [initState.grid] ∧
    (setCellSwar 0 1 "s" initState).historyIndex = 0 :=
  ⟨(C10_first_mutation_not_undoable 0 1 "s").1,
   ((C10_first_mutation_not_undoable 0 1 "s").2.2 (by decide) (by norm_num)).1,
   ((C10_first_mutation_not_undoable 0 1 "s").2.2 (by decide) (by norm_num)).2⟩

/-- C1: evaluation at the failing input.  From the fresh service, two
consecutive `setCellSwar` edits at (0,1); `undo()` then `redo()` both
succeed, but the resulting grid is the pre-second-edit snapshot (the
grid after the first edit), NOT the grid that existed just before the
undo — and the undo itself restored the grid from before both edits.
The post-mutation grid is never pushed to the history, so redo can never
reach it. -/
theorem C1_undo_redo_loses_latest_state :
    (undo (setCellSwar 0 1 "r" (setCellSwar 0 1 "s" initState))).1 = true ∧
    (redo (undo (setCellSwar 0 1 "r" (setCellSwar 0 1 "s" initState))).2).1 = true ∧
    (redo (undo (setCellSwar 0 1 "r" (setCellSwar 0 1 "s" initState))).2).2.grid ≠
      (setCellSwar 0 1 "r" (setCellSwar 0 1 "s" initState)).grid ∧
    (redo (undo (setCellSwar 0 1 "r" (setCellSwar 0 1 "s" initState))).2).2.grid =
      (setCellSwar 0 1 "s" initState).grid ∧
    (undo (setCellSwar 0 1 "r" (setCellSwar 0 1 "s" initState))).2.grid =
      initState.grid := by decide


end Swaralipi
